import Mathlib

/-!
Verification of the qstash-manager core: the persisted multi-environment
configuration store with token resolution, and the remote-operation
executor with error classification and bounded retry.

The definitions below are a shallow embedding of the TypeScript source:

* JavaScript string primitives used by the core (`trim`, `toLowerCase`,
  `includes`, `replace(/\s+/g, '-')`, the regex extractions) are modelled
  on `List Char`.
* The error module (`QStashError` and subclasses, `parseApiError`).
* The client wrapper (`executeWithRetry`, `executeWithErrorHandling`,
  `handleError`, `DEFAULT_RETRY_OPTIONS` of `src/lib/qstash/types.ts`).
* The `ConfigManager` class (`load`, `save`, `clearCache`,
  `addEnvironment`, `updateEnvironment`, `removeEnvironment`,
  `setDefaultEnvironment`, `getEnvironment`, `updatePreferences`,
  `resolveToken`).

Filesystem state is modelled as a `DiskFile` (absent, unparseable content, or
a parsed JSON document with optional fields); the manager state is the pair of
the in-memory cache and the disk file.  JavaScript in-place mutation of the
cached document by the mutating operations is modelled explicitly (see
`ConfigManager.aliasMutate`).
-/

/-! ## JavaScript string primitives -/

/-- The character class of the JavaScript `\s` regex escape and of
`String.prototype.trim` (whitespace and line terminators). -/
def jsWsB (c : Char) : Bool :=
  c = ' ' || c = '\t' || c = '\n' || c = '\r' || c = '\x0b' || c = '\x0c' ||
  c = ' ' || c = ' ' || (c.toNat ≥ 0x2000 && c.toNat ≤ 0x200a) ||
  c = ' ' || c = ' ' || c = ' ' || c = ' ' || c = '　' ||
  c = '﻿'

/-- Drop trailing characters satisfying `p` (helper for `trim`). -/
def dropEndWhile (p : Char → Bool) (l : List Char) : List Char :=
  (l.reverse.dropWhile p).reverse

/-- JavaScript `String.prototype.trim` on the character list. -/
def jsTrimList (l : List Char) : List Char :=
  dropEndWhile jsWsB (l.dropWhile jsWsB)

/-- JavaScript `String.prototype.trim`. -/
def jsTrim (s : String) : String :=
  ⟨jsTrimList s.toList⟩

/-- JavaScript `String.prototype.toLowerCase`, restricted to the ASCII
mapping performed by `Char.toLower` (sufficient for the classifier, which
compares against ASCII keywords, and for environment-id normalization). -/
def jsToLower (s : String) : String :=
  ⟨s.toList.map Char.toLower⟩

/-- Does `needle` occur as a contiguous substring of the list? -/
def subOccurs (needle : List Char) : List Char → Bool
  | [] => needle.isEmpty
  | c :: t => needle.isPrefixOf (c :: t) || subOccurs needle t

/-- JavaScript `haystack.includes(needle)`. -/
def strIncludes (haystack needle : String) : Bool :=
  subOccurs needle.toList haystack.toList

/-- JavaScript `s.replace(/\s+/g, '-')`: every run of whitespace characters
becomes a single hyphen.  The boolean argument records whether the previous
character belonged to a whitespace run already replaced. -/
def jsSlugAux : Bool → List Char → List Char
  | _, [] => []
  | prevWs, c :: rest =>
    if jsWsB c then
      if prevWs then jsSlugAux true rest
      else '-' :: jsSlugAux true rest
    else c :: jsSlugAux false rest

/-- The environment-id normalization performed by
`ConfigManager.addEnvironment`: `id.toLowerCase().replace(/\s+/g, '-')`. -/
def jsNormalizeId (s : String) : String :=
  ⟨jsSlugAux false (jsToLower s).toList⟩

/-- Numeric value of a digit run, as computed by `parseInt` on a string of
decimal digits. -/
def digitsToNat (l : List Char) : Nat :=
  l.foldl (fun a c => a * 10 + (c.toNat - 48)) 0

/-- Line terminators not matched by `.` in a JavaScript regex. -/
def isLineTermB (c : Char) : Bool :=
  c = '\n' || c = '\r' || c = ' ' || c = ' '

/-- Scan for the first decimal digit run, consuming arbitrary non-terminator
characters before it; gives up at a line terminator (helper for the
`/retry.+?(\d+)/i` match of `parseApiError`). -/
def findFirstDigitRun : List Char → Option Nat
  | [] => none
  | c :: rest =>
    if c.isDigit then some (digitsToNat ((c :: rest).takeWhile Char.isDigit))
    else if isLineTermB c then none
    else findFirstDigitRun rest

/-- After a literal `retry`, the regex `.+?(\d+)` must consume at least one
non-terminator character and then capture the first digit run. -/
def digitsAfterGap : List Char → Option Nat
  | [] => none
  | c :: rest => if isLineTermB c then none else findFirstDigitRun rest

/-- Leftmost-match semantics of `message.match(/retry.+?(\d+)/i)` followed by
`parseInt` of the captured group, on the lower-cased message: at each
occurrence of `retry`, try to capture a digit run after a non-empty gap;
on failure, backtrack to the next occurrence. -/
def retryScan : List Char → Option Nat
  | [] => none
  | c :: t =>
    if ("retry".toList).isPrefixOf (c :: t) then
      match digitsAfterGap ((c :: t).drop 5) with
      | some n => some n
      | none => retryScan t
    else retryScan t

/-- Leftmost match of `/5\d{2}/` followed by `parseInt`, as used by
`parseApiError` to extract a 5xx status code. -/
def firstFiveXX : List Char → Option Nat
  | c :: d1 :: d2 :: rest =>
    if c = '5' && d1.isDigit && d2.isDigit then
      some (500 + 10 * (d1.toNat - 48) + (d2.toNat - 48))
    else firstFiveXX (d1 :: d2 :: rest)
  | _ => none

/-- JavaScript truthiness of an optional string (`undefined` and the empty string are
falsy). -/
def jsTruthy : Option String → Bool
  | none => false
  | some s => s ≠ ""

/-! ## Error taxonomy (`src/lib/qstash/errors.ts`) -/

/-- The `QStashErrorCode` constants. -/
inductive QStashErrorCode where
  | UNAUTHORIZED
  | NOT_FOUND
  | RATE_LIMITED
  | BAD_REQUEST
  | SERVER_ERROR
  | NETWORK_ERROR
  | UNKNOWN
deriving DecidableEq, Repr

/-- The `QStashError` class: `message` (the `Error` message, returned verbatim
by `getUserMessage`), `code`, optional `statusCode`, `context`,
`isRetryable`, and the extra payload fields of the subclasses
(`retryAfter` of `QStashRateLimitError`, `resourceType`/`resourceId` of
`QStashNotFoundError`). -/
structure QStashError where
  message : String
  code : QStashErrorCode
  statusCode : Option Nat := none
  context : String
  isRetryable : Bool := false
  retryAfter : Option Nat := none
  resourceType : Option String := none
  resourceId : Option String := none
deriving DecidableEq, Repr

/-- The method `QStashError.getUserMessage()` returns the message. -/
def QStashError.getUserMessage (e : QStashError) : String :=
  e.message

/-- The `QStashAuthError` constructor. -/
def QStashAuthError (context : String) : QStashError :=
  { message := "Authentication failed. Please check your QStash token. You can update it in the config settings or set the QSTASH_TOKEN environment variable."
    code := .UNAUTHORIZED
    statusCode := some 401
    context := context
    isRetryable := false }

/-- The `QStashNotFoundError` constructor, including the resource-info
sentence of its message template. -/
def QStashNotFoundError (context : String)
    (resourceType resourceId : Option String) : QStashError :=
  let resourceInfo :=
    match resourceType with
    | some rt =>
      let idPart := match resourceId with
        | some rid => " \x27" ++ rid ++ "\x27"
        | none => ""
      "The " ++ rt ++ idPart ++ " may not exist or has been deleted."
    | none => "The resource may not exist or has been deleted."
  { message := context ++ ": Resource not found. " ++ resourceInfo
    code := .NOT_FOUND
    statusCode := some 404
    context := context
    isRetryable := false
    resourceType := resourceType
    resourceId := resourceId }

/-- The `QStashRateLimitError` constructor.  The wait hint is included only
when `retryAfter` is truthy (`0` is falsy in JavaScript). -/
def QStashRateLimitError (context : String) (retryAfter : Option Nat) :
    QStashError :=
  let retryInfo :=
    match retryAfter with
    | some n =>
      if n ≠ 0 then " Please wait " ++ toString n ++ " seconds before retrying."
      else " Please wait a moment and try again."
    | none => " Please wait a moment and try again."
  { message := "Rate limit exceeded." ++ retryInfo
    code := .RATE_LIMITED
    statusCode := some 429
    context := context
    isRetryable := true
    retryAfter := retryAfter }

/-- The `QStashBadRequestError` constructor. -/
def QStashBadRequestError (context message : String) : QStashError :=
  { message := context ++ ": " ++ message
    code := .BAD_REQUEST
    statusCode := some 400
    context := context
    isRetryable := false }

/-- The `QStashServerError` constructor. -/
def QStashServerError (context : String) (statusCode : Nat) : QStashError :=
  { message := context ++ ": QStash server error (" ++ toString statusCode ++ "). Please try again in a few moments. If the issue persists, check the Upstash status page."
    code := .SERVER_ERROR
    statusCode := some statusCode
    context := context
    isRetryable := true }

/-- The `QStashNetworkError` constructor. -/
def QStashNetworkError (context : String) : QStashError :=
  { message := context ++ ": Network error. Please check your internet connection and try again."
    code := .NETWORK_ERROR
    statusCode := none
    context := context
    isRetryable := true }

/-- An arbitrary JavaScript value thrown by an operation: an existing
`QStashError`, an `Error` carrying a message, or any other value identified
by its `String(...)` form. -/
inductive JSValue where
  | qstashError (e : QStashError)
  | jsError (message : String)
  | other (stringForm : String)
deriving DecidableEq, Repr

/-- The function `parseApiError(error, context)` of the error module:
idempotent on classified errors; for `Error` inputs, substring checks on the
lower-cased message in priority order; any other value becomes an `UNKNOWN`
error built from its string form. -/
def parseApiError (error : JSValue) (context : String) : QStashError :=
  match error with
  | .qstashError e => e
  | .jsError msg =>
    let message := jsToLower msg
    if strIncludes message "401" || strIncludes message "unauthorized" ||
        strIncludes message "authentication" then
      QStashAuthError context
    else if strIncludes message "404" || strIncludes message "not found" then
      QStashNotFoundError context none none
    else if strIncludes message "429" || strIncludes message "rate limit" ||
        strIncludes message "too many requests" then
      QStashRateLimitError context (retryScan message.toList)
    else if strIncludes message "400" || strIncludes message "bad request" ||
        strIncludes message "invalid" then
      QStashBadRequestError context msg
    else if strIncludes message "500" || strIncludes message "502" ||
        strIncludes message "503" || strIncludes message "504" then
      QStashServerError context ((firstFiveXX message.toList).getD 500)
    else if strIncludes message "network" || strIncludes message "econnrefused" ||
        strIncludes message "enotfound" || strIncludes message "timeout" ||
        strIncludes message "etimedout" || strIncludes message "fetch failed" then
      QStashNetworkError context
    else
      { message := context ++ ": " ++ msg
        code := .UNKNOWN
        context := context
        isRetryable := false }
  | .other s =>
    { message := context ++ ": " ++ s
      code := .UNKNOWN
      context := context
      isRetryable := false }


/-! ## Remote operation executor (`src/lib/qstash/client.ts`) -/

/-- The `RetryOptions` shape after the constructor merge with
`DEFAULT_RETRY_OPTIONS` (every field present). -/
structure RetryOptions where
  maxRetries : Nat
  initialDelay : Nat
  maxDelay : Nat
  multiplier : Nat
deriving DecidableEq, Repr

/-- The `DEFAULT_RETRY_OPTIONS` constant of `src/lib/qstash/types.ts`. -/
def DEFAULT_RETRY_OPTIONS : RetryOptions :=
  { maxRetries := 3, initialDelay := 1000, maxDelay := 10000, multiplier := 2 }

/-- One invocation of the wrapped remote operation either resolves with a
value or rejects with a thrown JavaScript value. -/
inductive Outcome (α : Type) where
  | ok (v : α)
  | fail (e : JSValue)

/-- Observable behaviour of `executeWithRetry`: the final settled outcome,
how many times the operation was invoked, and the ordered list of delays
slept between consecutive attempts. -/
structure RetryTrace (α : Type) where
  result : Except JSValue α
  attempts : Nat
  sleeps : List Nat

/-- The retry loop body of `executeWithRetry`.  `fuel` is the remaining retry
budget (`maxRetries - attempt` along the actual call chain), so `fuel = 0`
is exactly the `attempt >= maxRetries` exit of the loop; the loop throws the
current error when the classified error is not retryable or the budget is
exhausted, and otherwise sleeps for `delay`, multiplies the delay capped at
`maxDelay`, and retries. -/
def retryLoop {α : Type} (multiplier maxDelay : Nat) (op : Nat → Outcome α) :
    Nat → Nat → Nat → RetryTrace α
  | fuel, attempt, delay =>
    match op attempt with
    | .ok v => ⟨.ok v, attempt + 1, []⟩
    | .fail e =>
      match fuel with
      | 0 => ⟨.error e, attempt + 1, []⟩
      | fuel' + 1 =>
        if (parseApiError e "retry-check").isRetryable then
          let rest := retryLoop multiplier maxDelay op fuel' (attempt + 1)
            (min (delay * multiplier) maxDelay)
          ⟨rest.result, rest.attempts, delay :: rest.sleeps⟩
        else ⟨.error e, attempt + 1, []⟩

/-- The method `executeWithRetry`: with retries disabled
(`retryOptions = null`) the
operation runs once; otherwise the retry loop runs with the configured
budget starting from attempt 0 and the initial delay. -/
def executeWithRetry {α : Type} (retryOptions : Option RetryOptions)
    (op : Nat → Outcome α) : RetryTrace α :=
  match retryOptions with
  | none =>
    match op 0 with
    | .ok v => ⟨.ok v, 1, []⟩
    | .fail e => ⟨.error e, 1, []⟩
  | some ro => retryLoop ro.multiplier ro.maxDelay op ro.maxRetries 0 ro.initialDelay

/-- The `OperationResult<T>` shape of `src/lib/qstash/types.ts`. -/
structure OperationResult (α : Type) where
  success : Bool
  data : Option α := none
  error : Option String := none

/-- Optional resource information attached to the error context. -/
structure ResourceInfo where
  resourceType : Option String := none
  resourceId : Option String := none

/-- The context-string construction of `handleError`: the resource info is
appended only when both `resourceType` and `resourceId` are truthy. -/
def buildFullContext (context : String) (resourceInfo : Option ResourceInfo) :
    String :=
  match resourceInfo with
  | some info =>
    if jsTruthy info.resourceType && jsTruthy info.resourceId then
      context ++ " (" ++ info.resourceType.getD "" ++ ": " ++
        info.resourceId.getD "" ++ ")"
    else context
  | none => context

/-- The method `handleError(error, context, resourceInfo)`. -/
def handleError (error : JSValue) (context : String)
    (resourceInfo : Option ResourceInfo) : QStashError :=
  parseApiError error (buildFullContext context resourceInfo)

/-- The method `executeWithErrorHandling(context, operation, resourceInfo)`:
run the
operation through the retry policy; wrap a resolved value as a success
result; catch any thrown value, classify it, and return a failure result
carrying the user message of the classified error. -/
def executeWithErrorHandling {α : Type} (retryOptions : Option RetryOptions)
    (context : String) (op : Nat → Outcome α)
    (resourceInfo : Option ResourceInfo) : OperationResult α :=
  match (executeWithRetry retryOptions op).result with
  | .ok data => { success := true, data := some data }
  | .error e =>
    { success := false
      error := some (handleError e context resourceInfo).getUserMessage }

/-! ## Config data model (`src/types/config.ts`) -/

/-- An `Environment` entry of the config document. -/
structure Environment where
  token : String
  name : String
  createdAt : String
deriving DecidableEq, Repr

/-- The `Preferences` shape. -/
structure Preferences where
  colorOutput : Bool
  confirmDestructiveActions : Bool
deriving DecidableEq, Repr

/-- The `DEFAULT_PREFERENCES` constant. -/
def DEFAULT_PREFERENCES : Preferences :=
  { colorOutput := true, confirmDestructiveActions := true }

/-- The `environments` mapping, as a JavaScript object: an insertion-ordered
association list with unique keys. -/
abbrev EnvMap : Type := List (String × Environment)

/-- Object property lookup `config.environments[id]`. -/
def envGet (l : EnvMap) (k : String) : Option Environment :=
  match l with
  | [] => none
  | (k2, v) :: t => if k2 = k then some v else envGet t k

/-- Object property assignment `config.environments[id] = env`: replace in
place if the key exists,
otherwise append (JavaScript objects keep insertion order for string keys). -/
def envSet (l : EnvMap) (k : String) (v : Environment) : EnvMap :=
  match l with
  | [] => [(k, v)]
  | (k2, v2) :: t => if k2 = k then (k, v) :: t else (k2, v2) :: envSet t k v

/-- Object property deletion `delete config.environments[id]`. -/
def envDel (l : EnvMap) (k : String) : EnvMap :=
  match l with
  | [] => []
  | (k2, v2) :: t => if k2 = k then envDel t k else (k2, v2) :: envDel t k

/-- Key enumeration `Object.keys(config.environments)`. -/
def envKeys (l : EnvMap) : List String :=
  l.map Prod.fst

/-- The `Config` document (all fields present, the canonical in-memory
shape). -/
structure Config where
  version : String
  defaultEnvironment : String
  environments : EnvMap
  preferences : Preferences
deriving DecidableEq, Repr

/-- The `DEFAULT_CONFIG` constant. -/
def DEFAULT_CONFIG : Config :=
  { version := "1"
    defaultEnvironment := ""
    environments := []
    preferences := DEFAULT_PREFERENCES }

/-- A persisted `preferences` object with possibly missing keys. -/
structure PartialPreferences where
  colorOutput : Option Bool := none
  confirmDestructiveActions : Option Bool := none
deriving DecidableEq, Repr

/-- A persisted config document with possibly missing fields (what
`JSON.parse` of the backing file yields). -/
structure PartialConfig where
  version : Option String := none
  defaultEnvironment : Option String := none
  environments : Option EnvMap := none
  preferences : PartialPreferences := {}
deriving DecidableEq, Repr

/-- The shallow spread `{...base, ...updates}` on preferences. -/
def mergePreferences (base : Preferences) (updates : PartialPreferences) :
    Preferences :=
  { colorOutput := updates.colorOutput.getD base.colorOutput
    confirmDestructiveActions :=
      updates.confirmDestructiveActions.getD base.confirmDestructiveActions }

/-- The field-by-field normalization performed by `ConfigManager.load` on a
parsed document. -/
def normalizeConfig (p : PartialConfig) : Config :=
  { version := p.version.getD DEFAULT_CONFIG.version
    defaultEnvironment := p.defaultEnvironment.getD DEFAULT_CONFIG.defaultEnvironment
    environments := p.environments.getD DEFAULT_CONFIG.environments
    preferences := mergePreferences DEFAULT_PREFERENCES p.preferences }

/-- Serialization (`JSON.stringify`) of a complete document: every field is
present in the
persisted form. -/
def configToPartialDoc (c : Config) : PartialConfig :=
  { version := some c.version
    defaultEnvironment := some c.defaultEnvironment
    environments := some c.environments
    preferences :=
      { colorOutput := some c.preferences.colorOutput
        confirmDestructiveActions := some c.preferences.confirmDestructiveActions } }

/-- The backing file: absent, present with content that fails to parse as
JSON (`corrupt bytes`), or present with content that parses to a partial
document (`stored p`). -/
inductive DiskFile where
  | absent
  | corrupt (bytes : String)
  | stored (p : PartialConfig)
deriving DecidableEq, Repr

/-- The state of a `ConfigManager`: the `cachedConfig` field and the backing
file. -/
structure MgrState where
  cached : Option Config
  disk : DiskFile
deriving DecidableEq, Repr

/-! ## ConfigManager operations (`src/lib/config/manager.ts`)

Each operation takes the manager state; mutating operations additionally take
a `writeOk : Bool` telling whether the `writeFileSync` inside `save` succeeds,
and return `Except Unit r` — `.error ()` models the write-failure exception
propagating out of the operation (none of the mutating operations catch it). -/

/-- The `AddEnvironmentResult` shape (also returned by `updateEnvironment`). -/
structure AddEnvironmentResult where
  success : Bool
  environment : Option Environment := none
  error : Option String := none
deriving DecidableEq, Repr

/-- The `RemoveEnvironmentResult` shape. -/
structure RemoveEnvironmentResult where
  success : Bool
  error : Option String := none
  defaultAffected : Bool
deriving DecidableEq, Repr

/-- The `SetDefaultResult` shape. -/
structure SetDefaultResult where
  success : Bool
  previousDefault : Option String := none
  error : Option String := none
deriving DecidableEq, Repr

/-- The `TokenResolutionOptions` shape. -/
structure TokenResolutionOptions where
  cliToken : Option String := none
  environmentName : Option String := none
deriving DecidableEq, Repr

/-- The `source` field of a `TokenResolutionResult`. -/
inductive TokenSource where
  | cli
  | env
  | config
deriving DecidableEq, Repr

/-- The `TokenResolutionResult` shape. -/
structure TokenResolutionResult where
  token : String
  source : TokenSource
  environmentName : Option String := none
deriving DecidableEq, Repr

/-- The method `ConfigManager.load()`: return the cached document if
present; an absent
or unparseable file yields a fresh default document (not cached); a parsed
file is normalized field-by-field and cached. -/
def ConfigManager.load (st : MgrState) : Config × MgrState :=
  match st.cached with
  | some c => (c, st)
  | none =>
    match st.disk with
    | .absent => (DEFAULT_CONFIG, st)
    | .corrupt _ => (DEFAULT_CONFIG, st)
    | .stored p =>
      let normalized := normalizeConfig p
      (normalized, { st with cached := some normalized })

/-- The document `load()` would currently return — the observable in-memory
document of the store. -/
def docOf (st : MgrState) : Config :=
  (ConfigManager.load st).1

/-- The method `ConfigManager.save(config)`: write the full document and
replace the
cache with exactly the saved value.  When the write fails
(`writeOk = false`) the exception is thrown before the cache assignment, so
the state is unchanged. -/
def ConfigManager.save (writeOk : Bool) (st : MgrState) (c : Config) :
    MgrState × Except Unit Unit :=
  if writeOk then
    ({ cached := some c, disk := .stored (configToPartialDoc c) }, .ok ())
  else (st, .error ())

/-- The method `ConfigManager.clearCache()`. -/
def ConfigManager.clearCache (st : MgrState) : MgrState :=
  { st with cached := none }

/-- The method `ConfigManager.configExists()`. -/
def ConfigManager.configExists (st : MgrState) : Bool :=
  match st.disk with
  | .absent => false
  | _ => true

/-- The mutating operations mutate the object returned by `load()` in place
before calling `save`.  When `load()` returned the cached document (or cached
the freshly parsed one), that object IS the cache, so the mutation is visible
in the cache even if the subsequent `save` throws.  This helper applies that
aliasing: if a document is cached, it now holds the mutated value. -/
def ConfigManager.aliasMutate (st : MgrState) (newConfig : Config) : MgrState :=
  { st with cached := st.cached.map (fun _ => newConfig) }

/-- The message stating that the named environment does not exist. -/
def msgDoesNotExist (id : String) : String :=
  "Environment \x27" ++ id ++ "\x27 does not exist"

/-- The message stating that the named environment already exists. -/
def msgAlreadyExists (id : String) : String :=
  "Environment \x27" ++ id ++ "\x27 already exists"

/-- The method `ConfigManager.addEnvironment(id, token, displayName)`;
`now` is the
`new Date().toISOString()` timestamp. -/
def ConfigManager.addEnvironment (writeOk : Bool) (now : String)
    (st : MgrState) (id token : String) (displayName : Option String) :
    MgrState × Except Unit AddEnvironmentResult :=
  if id = "" ∨ jsTrim id = "" then
    (st, .ok { success := false, error := some "Environment ID is required" })
  else
    let normalizedId := jsNormalizeId id
    if token = "" ∨ jsTrim token = "" then
      (st, .ok { success := false, error := some "Token is required" })
    else
      let (config, st1) := ConfigManager.load st
      if (envGet config.environments normalizedId).isSome then
        (st1, .ok { success := false, error := some (msgAlreadyExists normalizedId) })
      else
        let environment : Environment :=
          { token := jsTrim token
            name := match displayName with
              | some d => if jsTrim d = "" then normalizedId else jsTrim d
              | none => normalizedId
            createdAt := now }
        let envs1 := envSet config.environments normalizedId environment
        let newConfig : Config :=
          { config with
            environments := envs1
            defaultEnvironment :=
              if envs1.length = 1 then normalizedId else config.defaultEnvironment }
        let st2 := ConfigManager.aliasMutate st1 newConfig
        match ConfigManager.save writeOk st2 newConfig with
        | (st3, .ok _) =>
          (st3, .ok { success := true, environment := some environment })
        | (st3, .error _) => (st3, .error ())

/-- The method `ConfigManager.updateEnvironment(id, {token, name})`: only
provided
fields are overwritten (each trimmed); `createdAt` is preserved. -/
def ConfigManager.updateEnvironment (writeOk : Bool) (st : MgrState)
    (id : String) (updToken updName : Option String) :
    MgrState × Except Unit AddEnvironmentResult :=
  let (config, st1) := ConfigManager.load st
  match envGet config.environments id with
  | none => (st1, .ok { success := false, error := some (msgDoesNotExist id) })
  | some existing =>
    let updated : Environment :=
      { existing with
        token := (updToken.map jsTrim).getD existing.token
        name := (updName.map jsTrim).getD existing.name }
    let newConfig : Config :=
      { config with environments := envSet config.environments id updated }
    let st2 := ConfigManager.aliasMutate st1 newConfig
    match ConfigManager.save writeOk st2 newConfig with
    | (st3, .ok _) =>
      (st3, .ok { success := true, environment := some updated })
    | (st3, .error _) => (st3, .error ())

/-- The method `ConfigManager.removeEnvironment(id)`: delete the entry; if
the removed
id was the default, the new default is the first remaining key, or the empty
string if none remain. -/
def ConfigManager.removeEnvironment (writeOk : Bool) (st : MgrState)
    (id : String) : MgrState × Except Unit RemoveEnvironmentResult :=
  let (config, st1) := ConfigManager.load st
  if (envGet config.environments id).isNone then
    (st1, .ok { success := false, error := some (msgDoesNotExist id)
                defaultAffected := false })
  else
    let envs1 := envDel config.environments id
    let defaultAffected := config.defaultEnvironment = id
    let newDefault :=
      if defaultAffected then
        match envKeys envs1 with
        | [] => ""
        | k :: _ => k
      else config.defaultEnvironment
    let newConfig : Config :=
      { config with environments := envs1, defaultEnvironment := newDefault }
    let st2 := ConfigManager.aliasMutate st1 newConfig
    match ConfigManager.save writeOk st2 newConfig with
    | (st3, .ok _) =>
      (st3, .ok { success := true, defaultAffected := defaultAffected })
    | (st3, .error _) => (st3, .error ())

/-- The method `ConfigManager.setDefaultEnvironment(id)`. -/
def ConfigManager.setDefaultEnvironment (writeOk : Bool) (st : MgrState)
    (id : String) : MgrState × Except Unit SetDefaultResult :=
  let (config, st1) := ConfigManager.load st
  if (envGet config.environments id).isNone then
    (st1, .ok { success := false, error := some (msgDoesNotExist id) })
  else
    let previousDefault := config.defaultEnvironment
    let newConfig : Config := { config with defaultEnvironment := id }
    let st2 := ConfigManager.aliasMutate st1 newConfig
    match ConfigManager.save writeOk st2 newConfig with
    | (st3, .ok _) =>
      (st3, .ok { success := true, previousDefault := some previousDefault })
    | (st3, .error _) => (st3, .error ())

/-- The method `ConfigManager.updatePreferences(updates)`: shallow merge of
the updates
over the current preferences (themselves over the defaults), persisted
immediately. -/
def ConfigManager.updatePreferences (writeOk : Bool) (st : MgrState)
    (updates : PartialPreferences) : MgrState × Except Unit Preferences :=
  let (config, st1) := ConfigManager.load st
  let newPrefs :=
    mergePreferences (mergePreferences DEFAULT_PREFERENCES
      (configToPartialDoc config).preferences) updates
  let newConfig : Config := { config with preferences := newPrefs }
  let st2 := ConfigManager.aliasMutate st1 newConfig
  match ConfigManager.save writeOk st2 newConfig with
  | (st3, .ok _) => (st3, .ok newPrefs)
  | (st3, .error _) => (st3, .error ())

/-- The method `ConfigManager.getEnvironment(id)` — no normalization of the
supplied
id. -/
def ConfigManager.getEnvironment (st : MgrState) (id : String) :
    Option Environment :=
  envGet (ConfigManager.load st).1.environments id

/-- The method `ConfigManager.getDefaultEnvironment()`. -/
def ConfigManager.getDefaultEnvironment (st : MgrState) : String :=
  (ConfigManager.load st).1.defaultEnvironment

/-- Tier 3 of `resolveToken`: `options.environmentName ||
config.defaultEnvironment`, looked up in the stored environments; the stored
token is returned verbatim. -/
def ConfigManager.resolveTokenConfigTier (st : MgrState)
    (options : TokenResolutionOptions) : Option TokenResolutionResult :=
  let config := (ConfigManager.load st).1
  let envName :=
    match options.environmentName with
    | some n => if n ≠ "" then n else config.defaultEnvironment
    | none => config.defaultEnvironment
  if envName ≠ "" then
    match envGet config.environments envName with
    | some e =>
      some { token := e.token, source := .config, environmentName := some envName }
    | none => none
  else none

/-- Tiers 2 and 3 of `resolveToken` (the `QSTASH_TOKEN` process environment
variable, then the config document). -/
def ConfigManager.resolveTokenEnvTier (envVar : Option String) (st : MgrState)
    (options : TokenResolutionOptions) : Option TokenResolutionResult :=
  match envVar with
  | some t =>
    if t ≠ "" ∧ jsTrim t ≠ "" then
      some { token := jsTrim t, source := .env }
    else ConfigManager.resolveTokenConfigTier st options
  | none => ConfigManager.resolveTokenConfigTier st options

/-- The method `ConfigManager.resolveToken(options)`: CLI token, then the
`QSTASH_TOKEN` process environment variable (`envVar`), then the config
document (the named environment, else the default environment); `null` when
nothing resolves. -/
def ConfigManager.resolveToken (envVar : Option String) (st : MgrState)
    (options : TokenResolutionOptions) : Option TokenResolutionResult :=
  match options.cliToken with
  | some t =>
    if t ≠ "" ∧ jsTrim t ≠ "" then
      some { token := jsTrim t, source := .cli }
    else ConfigManager.resolveTokenEnvTier envVar st options
  | none => ConfigManager.resolveTokenEnvTier envVar st options

/-! ## Sequences of mutating config-store operations -/

/-- One mutating call on the config store, with its arguments (for
`addEnvironment`, `now` is the timestamp of the call). -/
inductive MutOp where
  | add (now id token : String) (displayName : Option String)
  | update (id : String) (updToken updName : Option String)
  | remove (id : String)
  | setDefault (id : String)
  | setPrefs (updates : PartialPreferences)

/-- Run one mutating operation; the result is reduced to the new state plus
`.ok success-flag` or `.error ()` for a propagated write exception
(`updatePreferences` has no failure result, so it reports `true`). -/
def applyMutOpFull (writeOk : Bool) (st : MgrState) :
    MutOp → MgrState × Except Unit Bool
  | .add now id token displayName =>
    let (st2, r) := ConfigManager.addEnvironment writeOk now st id token displayName
    (st2, r.map (·.success))
  | .update id updToken updName =>
    let (st2, r) := ConfigManager.updateEnvironment writeOk st id updToken updName
    (st2, r.map (·.success))
  | .remove id =>
    let (st2, r) := ConfigManager.removeEnvironment writeOk st id
    (st2, r.map (·.success))
  | .setDefault id =>
    let (st2, r) := ConfigManager.setDefaultEnvironment writeOk st id
    (st2, r.map (·.success))
  | .setPrefs updates =>
    let (st2, r) := ConfigManager.updatePreferences writeOk st updates
    (st2, r.map (fun _ => true))

/-- Run a sequence of mutating operations, each with its own write-success
flag. -/
def runOps (ops : List (MutOp × Bool)) (st : MgrState) : MgrState :=
  ops.foldl (fun s ow => (applyMutOpFull ow.2 s ow.1).1) st

/-- The fresh store: no cache, no backing file — `load()` yields the default
(empty) document. -/
def initialState : MgrState :=
  { cached := none, disk := .absent }

/-! ## Invariant predicates for the claims -/

/-- The default-environment invariant: `defaultEnvironment` is either empty
or a key of the environments mapping, and an empty mapping forces an empty
default. -/
def defaultInv (c : Config) : Prop :=
  (c.defaultEnvironment = "" ∨
    (envGet c.environments c.defaultEnvironment).isSome = true) ∧
  (c.environments = [] → c.defaultEnvironment = "")

/-- An id in stored (normalized) form: lower-case (fixed by `toLowerCase`)
and free of whitespace characters. -/
def goodId (k : String) : Prop :=
  jsToLower k = k ∧ k.toList.all (fun c => !jsWsB c) = true

/-- The stored-environment shape invariant that actually holds (claim C7
amended): every stored id is normalized and every stored token is trimmed
(no leading or trailing whitespace — it may be empty or contain interior
whitespace). -/
def envShapeInv (c : Config) : Prop :=
  ∀ p ∈ c.environments, goodId p.1 ∧ jsTrim p.2.token = p.2.token

/-! ## Spec-side definitions for the corrected claims

These two definitions are written from the words of the spec/claims (not
from the source) and are compared against the source-derived definitions in
refinement-style theorems. -/

/-- Modelled from the spec: the classification priority table of §4.3 —
the kind assigned to a lower-cased message by the first matching substring
group. -/
def classifyKindSpec (message : String) : QStashErrorCode :=
  if strIncludes message "401" || strIncludes message "unauthorized" ||
      strIncludes message "authentication" then .UNAUTHORIZED
  else if strIncludes message "404" || strIncludes message "not found" then
    .NOT_FOUND
  else if strIncludes message "429" || strIncludes message "rate limit" ||
      strIncludes message "too many requests" then .RATE_LIMITED
  else if strIncludes message "400" || strIncludes message "bad request" ||
      strIncludes message "invalid" then .BAD_REQUEST
  else if strIncludes message "500" || strIncludes message "502" ||
      strIncludes message "503" || strIncludes message "504" then .SERVER_ERROR
  else if strIncludes message "network" || strIncludes message "econnrefused" ||
      strIncludes message "enotfound" || strIncludes message "timeout" ||
      strIncludes message "etimedout" || strIncludes message "fetch failed" then
    .NETWORK_ERROR
  else .UNKNOWN

/-- Modelled from the spec: the status code each kind carries (the
`SERVER_ERROR` status is the first 3-digit `5xx` match in the lower-cased
message, defaulting to 500). -/
def kindStatusSpec (k : QStashErrorCode) (message : String) : Option Nat :=
  match k with
  | .UNAUTHORIZED => some 401
  | .NOT_FOUND => some 404
  | .RATE_LIMITED => some 429
  | .BAD_REQUEST => some 400
  | .SERVER_ERROR => some ((firstFiveXX message.toList).getD 500)
  | .NETWORK_ERROR => none
  | .UNKNOWN => none

/-- Modelled from the spec: which kinds are retryable. -/
def kindRetryableSpec (k : QStashErrorCode) : Bool :=
  match k with
  | .RATE_LIMITED => true
  | .SERVER_ERROR => true
  | .NETWORK_ERROR => true
  | _ => false

/-- The first defined tier value (priority-chain evaluation). -/
def firstSomeTier (tiers : List (Option TokenResolutionResult)) :
    Option TokenResolutionResult :=
  match tiers with
  | [] => none
  | some r :: _ => some r
  | none :: rest => firstSomeTier rest

/-- Modelled from the spec, as amended by the counterexample of claim C3: the
CLI tier counts only when non-blank after trimming (and resolves to the
trimmed value). -/
def cliTierSpec (options : TokenResolutionOptions) :
    Option TokenResolutionResult :=
  match options.cliToken with
  | some t =>
    if jsTrim t = "" then none
    else some { token := jsTrim t, source := TokenSource.cli,
                environmentName := none }
  | none => none

/-- Modelled from the spec, as amended: the environment-variable tier, with
the same blank-after-trim rule as the CLI tier. -/
def envTierSpec (envVar : Option String) : Option TokenResolutionResult :=
  match envVar with
  | some t =>
    if jsTrim t = "" then none
    else some { token := jsTrim t, source := TokenSource.env,
                environmentName := none }
  | none => none

/-- Modelled from the spec, as amended: the config tier resolves to the
stored token verbatim — with no blank check — whenever the effective
environment name (the optionally supplied name, else the default) is
non-empty and names a stored environment. -/
def configTierSpec (st : MgrState) (options : TokenResolutionOptions) :
    Option TokenResolutionResult :=
  let doc := docOf st
  let effectiveName :=
    match options.environmentName with
    | some n => if n = "" then doc.defaultEnvironment else n
    | none => doc.defaultEnvironment
  if effectiveName = "" then none
  else
    (envGet doc.environments effectiveName).map fun e =>
      { token := e.token, source := TokenSource.config,
        environmentName := some effectiveName }

/-- Modelled from the spec, as amended by the counterexample of claim C3: the
token resolver evaluates the three tiers in strict priority order and takes
the first that yields a value, returning absence when none does. -/
def resolveTokenSpecAmended (envVar : Option String) (st : MgrState)
    (options : TokenResolutionOptions) : Option TokenResolutionResult :=
  firstSomeTier [cliTierSpec options, envTierSpec envVar,
    configTierSpec st options]

/-! ## Pure document-level transitions of the mutating operations

Each mutating operation computes its new document purely from the loaded
document; these functions are that computation factored out (returning the
document unchanged on a validation failure), used to state and prove the
store invariants. -/

/-- The document transition of `addEnvironment`. -/
def addEnvironmentCfg (now id token : String) (displayName : Option String)
    (c : Config) : Config :=
  if id = "" ∨ jsTrim id = "" then c
  else
    let normalizedId := jsNormalizeId id
    if token = "" ∨ jsTrim token = "" then c
    else if (envGet c.environments normalizedId).isSome then c
    else
      let environment : Environment :=
        { token := jsTrim token
          name := match displayName with
            | some d => if jsTrim d = "" then normalizedId else jsTrim d
            | none => normalizedId
          createdAt := now }
      let envs1 := envSet c.environments normalizedId environment
      { c with
        environments := envs1
        defaultEnvironment :=
          if envs1.length = 1 then normalizedId else c.defaultEnvironment }

/-- The document transition of `updateEnvironment`. -/
def updateEnvironmentCfg (id : String) (updToken updName : Option String)
    (c : Config) : Config :=
  match envGet c.environments id with
  | none => c
  | some existing =>
    let updated : Environment :=
      { existing with
        token := (updToken.map jsTrim).getD existing.token
        name := (updName.map jsTrim).getD existing.name }
    { c with environments := envSet c.environments id updated }

/-- The document transition of `removeEnvironment`. -/
def removeEnvironmentCfg (id : String) (c : Config) : Config :=
  if (envGet c.environments id).isNone then c
  else
    let envs1 := envDel c.environments id
    let newDefault :=
      if c.defaultEnvironment = id then
        match envKeys envs1 with
        | [] => ""
        | k :: _ => k
      else c.defaultEnvironment
    { c with environments := envs1, defaultEnvironment := newDefault }

/-- The document transition of `setDefaultEnvironment`. -/
def setDefaultEnvironmentCfg (id : String) (c : Config) : Config :=
  if (envGet c.environments id).isNone then c
  else { c with defaultEnvironment := id }

/-- The document transition of `updatePreferences`. -/
def updatePreferencesCfg (updates : PartialPreferences) (c : Config) : Config :=
  { c with
    preferences :=
      mergePreferences (mergePreferences DEFAULT_PREFERENCES
        (configToPartialDoc c).preferences) updates }

/-- The document transition of an arbitrary mutating operation. -/
def mutOpConfig : MutOp → Config → Config
  | .add now id token displayName => addEnvironmentCfg now id token displayName
  | .update id updToken updName => updateEnvironmentCfg id updToken updName
  | .remove id => removeEnvironmentCfg id
  | .setDefault id => setDefaultEnvironmentCfg id
  | .setPrefs updates => updatePreferencesCfg updates

/-! ## Helper lemmas: JavaScript string functions -/

theorem ofNat_toNat_valid (n : Nat) (h : n.isValidChar) :
    (Char.ofNat n).toNat = n := by
  simp only [Char.ofNat, h, dite_true]
  rfl

theorem charLower_toNat (c : Char) :
    (Char.toLower c).toNat =
      if 65 ≤ c.toNat ∧ c.toNat ≤ 90 then c.toNat + 32 else c.toNat := by
  unfold Char.toLower
  simp only [ge_iff_le]
  split
  case isTrue h =>
    have hv : (c.toNat + 32).isValidChar := by
      left
      have : c.toNat ≤ 90 := h.2
      omega
    rw [ofNat_toNat_valid _ hv]
  case isFalse h =>
    rfl

theorem uint32_eq_of_toNat (a b : UInt32) (h : a.toNat = b.toNat) : a = b :=
  UInt32.toNat.inj h

theorem charLower_idem (c : Char) :
    Char.toLower (Char.toLower c) = Char.toLower c := by
  have h1 := charLower_toNat c
  have h2 := charLower_toNat (Char.toLower c)
  have key : (Char.toLower (Char.toLower c)).toNat = (Char.toLower c).toNat := by
    rw [h2, h1]
    by_cases hc : 65 ≤ c.toNat ∧ c.toNat ≤ 90
    · rw [if_pos hc, if_neg (by omega)]
    · rw [if_neg hc, if_neg hc]
  exact Char.eq_of_val_eq (uint32_eq_of_toNat _ _ key)

theorem map_fix {α : Type} (f : α → α) :
    ∀ l : List α, (∀ x ∈ l, f x = x) → l.map f = l := by
  intro l
  induction l with
  | nil => intro _; rfl
  | cons c t ih =>
    intro h
    simp only [List.map_cons]
    rw [h c (by simp), ih (fun x hx => h x (by simp [hx]))]

theorem dropWhile_head_false (p : Char → Bool) (l : List Char) (c : Char)
    (t : List Char) (h : l.dropWhile p = c :: t) : p c = false := by
  have := List.head?_dropWhile_not p l
  rw [h] at this
  simpa using this

theorem dropWhile_fix (p : Char → Bool) (m : List Char)
    (h : ∀ c t, m = c :: t → p c = false) : m.dropWhile p = m := by
  cases m with
  | nil => rfl
  | cons c t =>
    rw [List.dropWhile_cons, h c t rfl]
    simp

theorem dropEndWhile_fix (p : Char → Bool) (m : List Char)
    (h : ∀ c, m.getLast? = some c → p c = false) : dropEndWhile p m = m := by
  unfold dropEndWhile
  have hrev : m.reverse.dropWhile p = m.reverse := by
    apply dropWhile_fix
    intro c t hct
    apply h
    rw [← List.head?_reverse, hct]
    rfl
  rw [hrev, List.reverse_reverse]

theorem prefix_head {α : Type} (m A : List α) (hp : m <+: A) (c : α)
    (t : List α) (h : m = c :: t) : A.head? = some c := by
  obtain ⟨r, hr⟩ := hp
  rw [← hr, h]
  rfl

theorem dropEndWhile_isPrefixOf (p : Char → Bool) (A : List Char) :
    dropEndWhile p A <+: A := by
  unfold dropEndWhile
  have hs : A.reverse.dropWhile p <:+ A.reverse := List.dropWhile_suffix p
  have := List.reverse_prefix.mpr hs
  simpa using this

theorem jsTrimList_head_false (l : List Char) (c : Char) (t : List Char)
    (h : jsTrimList l = c :: t) : jsWsB c = false := by
  have hpre : jsTrimList l <+: l.dropWhile jsWsB := dropEndWhile_isPrefixOf _ _
  have hhead : (l.dropWhile jsWsB).head? = some c := prefix_head _ _ hpre c t h
  cases hd : l.dropWhile jsWsB with
  | nil => rw [hd] at hhead; cases hhead
  | cons c2 t2 =>
    rw [hd] at hhead
    have : c2 = c := by simpa using hhead
    subst this
    exact dropWhile_head_false jsWsB l c2 t2 hd

theorem jsTrimList_getLast_false (l : List Char) (c : Char)
    (h : (jsTrimList l).getLast? = some c) : jsWsB c = false := by
  unfold jsTrimList dropEndWhile at h
  rw [List.getLast?_reverse] at h
  cases hd : (l.dropWhile jsWsB).reverse.dropWhile jsWsB with
  | nil => rw [hd] at h; cases h
  | cons c2 t2 =>
    rw [hd] at h
    have : c2 = c := by simpa using h
    subst this
    exact dropWhile_head_false jsWsB _ c2 t2 hd

theorem jsTrimList_idem (l : List Char) :
    jsTrimList (jsTrimList l) = jsTrimList l := by
  have h1 : (jsTrimList l).dropWhile jsWsB = jsTrimList l := by
    apply dropWhile_fix
    intro c t hct
    exact jsTrimList_head_false l c t hct
  show dropEndWhile jsWsB ((jsTrimList l).dropWhile jsWsB) = jsTrimList l
  rw [h1]
  apply dropEndWhile_fix
  intro c hc
  exact jsTrimList_getLast_false l c hc

theorem jsTrim_toList (s : String) : (jsTrim s).toList = jsTrimList s.toList := rfl

theorem jsTrim_idem (s : String) : jsTrim (jsTrim s) = jsTrim s := by
  show (⟨jsTrimList (jsTrimList s.toList)⟩ : String) = ⟨jsTrimList s.toList⟩
  rw [jsTrimList_idem]

theorem jsSlugAux_all_not_ws :
    ∀ (m : List Char) (b : Bool), (jsSlugAux b m).all (fun c => !jsWsB c) = true := by
  intro m
  induction m with
  | nil => intro b; rfl
  | cons c0 t ih =>
    intro b
    cases hws : jsWsB c0 with
    | true =>
      cases b <;>
        simp [jsSlugAux, hws, ih, show jsWsB '-' = false by decide]
    | false =>
      simp [jsSlugAux, hws, ih]

theorem jsSlugAux_lower_fix :
    ∀ (m : List Char) (b : Bool), (∀ c ∈ m, Char.toLower c = c) →
      (jsSlugAux b m).map Char.toLower = jsSlugAux b m := by
  intro m
  induction m with
  | nil => intro b _; rfl
  | cons c0 t ih =>
    intro b h
    have ht : ∀ c ∈ t, Char.toLower c = c := fun c hc => h c (by simp [hc])
    cases hws : jsWsB c0 with
    | true =>
      cases b <;>
        simp [jsSlugAux, hws, ih true ht, show Char.toLower '-' = '-' by decide]
    | false =>
      simp [jsSlugAux, hws, ih false ht, h c0 (by simp)]

theorem goodId_jsNormalizeId (s : String) : goodId (jsNormalizeId s) := by
  constructor
  · show jsToLower ⟨jsSlugAux false (jsToLower s).toList⟩ =
      ⟨jsSlugAux false (jsToLower s).toList⟩
    unfold jsToLower
    congr 1
    apply jsSlugAux_lower_fix
    intro c hc
    change c ∈ List.map Char.toLower s.toList at hc
    simp only [List.mem_map] at hc
    obtain ⟨c0, _, hc0⟩ := hc
    rw [← hc0]
    exact charLower_idem c0
  · show (jsSlugAux false (jsToLower s).toList).all (fun c => !jsWsB c) = true
    exact jsSlugAux_all_not_ws _ false

/-! ## Helper lemmas: the environments mapping -/

theorem envGet_envSet (l : EnvMap) (k : String) (v : Environment) (k2 : String) :
    envGet (envSet l k v) k2 = if k = k2 then some v else envGet l k2 := by
  induction l with
  | nil =>
    by_cases h : k = k2 <;> simp [envSet, envGet, h]
  | cons p t ih =>
    obtain ⟨k0, v0⟩ := p
    by_cases h0 : k0 = k
    · subst h0
      by_cases h2 : k0 = k2 <;> simp [envSet, envGet, h2]
    · by_cases h2 : k0 = k2
      · subst h2
        have hne : ¬k = k0 := fun h => h0 h.symm
        simp [envSet, envGet, h0, hne]
      · simp [envSet, envGet, h0, h2, ih]

theorem envGet_envDel (l : EnvMap) (k k2 : String) :
    envGet (envDel l k) k2 = if k2 = k then none else envGet l k2 := by
  induction l with
  | nil => by_cases h : k2 = k <;> simp [envDel, envGet, h]
  | cons q t ih =>
    obtain ⟨k0, v0⟩ := q
    show envGet (if k0 = k then envDel t k else (k0, v0) :: envDel t k) k2 = _
    by_cases h0 : k0 = k
    · rw [if_pos h0, ih]
      by_cases h2 : k2 = k
      · rw [if_pos h2, if_pos h2]
      · rw [if_neg h2, if_neg h2, envGet,
          if_neg (show ¬k0 = k2 by rw [h0]; intro hh; exact h2 hh.symm)]
    · rw [if_neg h0, envGet]
      by_cases h3 : k0 = k2
      · have h2 : ¬k2 = k := by rw [← h3]; exact h0
        rw [if_pos h3, if_neg h2, envGet, if_pos h3]
      · rw [if_neg h3, ih]
        by_cases h2 : k2 = k
        · rw [if_pos h2, if_pos h2]
        · rw [if_neg h2, if_neg h2, envGet, if_neg h3]

theorem envSet_ne_nil (l : EnvMap) (k : String) (v : Environment) :
    envSet l k v ≠ [] := by
  cases l with
  | nil => simp [envSet]
  | cons p t =>
    obtain ⟨k0, v0⟩ := p
    by_cases h : k0 = k <;> simp [envSet, h]

theorem envSet_mem (l : EnvMap) (k : String) (v : Environment) :
    ∀ p ∈ envSet l k v, p = (k, v) ∨ p ∈ l := by
  induction l with
  | nil =>
    intro p hp
    simp [envSet] at hp
    exact Or.inl hp
  | cons q t ih =>
    obtain ⟨k0, v0⟩ := q
    intro p hp
    by_cases h : k0 = k
    · rw [envSet, if_pos h] at hp
      rcases List.mem_cons.mp hp with h1 | h1
      · exact Or.inl h1
      · exact Or.inr (List.mem_cons_of_mem _ h1)
    · rw [envSet, if_neg h] at hp
      rcases List.mem_cons.mp hp with h1 | h1
      · exact Or.inr (by rw [h1]; exact List.mem_cons_self _ _)
      · rcases ih p h1 with h2 | h2
        · exact Or.inl h2
        · exact Or.inr (List.mem_cons_of_mem _ h2)

theorem envDel_mem (l : EnvMap) (k : String) :
    ∀ p ∈ envDel l k, p ∈ l := by
  induction l with
  | nil => intro p hp; simp [envDel] at hp
  | cons q t ih =>
    obtain ⟨k0, v0⟩ := q
    intro p hp
    by_cases h : k0 = k
    · simp only [envDel, if_pos h] at hp
      exact List.mem_cons_of_mem _ (ih p hp)
    · simp only [envDel, if_neg h, List.mem_cons] at hp
      rcases hp with h1 | h1
      · simp [h1]
      · exact List.mem_cons_of_mem _ (ih p h1)

theorem envGet_mem (l : EnvMap) (k : String) (v : Environment)
    (h : envGet l k = some v) : (k, v) ∈ l := by
  induction l with
  | nil => cases h
  | cons q t ih =>
    obtain ⟨k0, v0⟩ := q
    by_cases h0 : k0 = k
    · subst h0
      rw [envGet, if_pos rfl] at h
      have hv : v0 = v := by injection h
      subst hv
      exact List.mem_cons_self _ _
    · rw [envGet, if_neg h0] at h
      exact List.mem_cons_of_mem _ (ih h)

theorem envKeys_head_isSome (m : EnvMap) (k : String) (t : List String)
    (h : envKeys m = k :: t) : (envGet m k).isSome = true := by
  cases m with
  | nil => cases h
  | cons q r =>
    obtain ⟨k0, v0⟩ := q
    have : k0 = k := by
      simpa [envKeys] using congrArg List.head? h
    subst this
    simp [envGet]

theorem envDel_eq_nil_keys (l : EnvMap) (k : String)
    (h : envDel l k = []) : ∀ p ∈ l, p.1 = k := by
  induction l with
  | nil => intro p hp; cases hp
  | cons q t ih =>
    obtain ⟨k0, v0⟩ := q
    intro p hp
    by_cases h0 : k0 = k
    · subst h0
      simp only [envDel, if_pos rfl] at h
      rcases List.mem_cons.mp hp with h1 | h1
      · simp [h1]
      · exact ih h p h1
    · simp [envDel, h0] at h

/-! ## Helper lemmas: manager state and `load` -/

theorem load_fst (st : MgrState) : (ConfigManager.load st).1 = docOf st := rfl

theorem docOf_load_snd (st : MgrState) :
    docOf ((ConfigManager.load st).2) = docOf st := by
  unfold docOf ConfigManager.load
  cases hc : st.cached with
  | some c => simp [hc]
  | none =>
    cases hd : st.disk <;> simp [hc, hd]

theorem docOf_aliasMutate (st : MgrState) (c : Config) :
    docOf (ConfigManager.aliasMutate st c) =
      match st.cached with
      | some _ => c
      | none => docOf st := by
  unfold docOf ConfigManager.aliasMutate ConfigManager.load
  cases hc : st.cached with
  | some c0 => simp [hc]
  | none =>
    cases hd : st.disk <;> simp [hc, hd]

theorem cached_load_snd (st : MgrState) (c0 : Config)
    (h : ((ConfigManager.load st).2).cached = some c0) : c0 = docOf st := by
  unfold ConfigManager.load at h
  unfold docOf ConfigManager.load
  cases hc : st.cached with
  | some c =>
    rw [hc] at h
    simp only at h
    rw [hc] at h
    have : c = c0 := by injection h
    simp [← this]
  | none =>
    cases hd : st.disk with
    | absent =>
      rw [hc] at h
      simp only [hd] at h
      rw [hc] at h
      cases h
    | corrupt b =>
      rw [hc] at h
      simp only [hd] at h
      rw [hc] at h
      cases h
    | stored p =>
      rw [hc] at h
      simp only [hd] at h
      have : normalizeConfig p = c0 := by injection h
      simp [hc, hd, ← this]

/-! ## Helper lemmas: shape of the mutating operations -/

theorem load_snd_disk (st : MgrState) :
    ((ConfigManager.load st).2).disk = st.disk := by
  unfold ConfigManager.load
  cases hc : st.cached with
  | some c => rfl
  | none => cases hd : st.disk <;> simp [hc, hd]

theorem aliasMutate_disk (st : MgrState) (c : Config) :
    (ConfigManager.aliasMutate st c).disk = st.disk := rfl

theorem docOf_mk_some (c : Config) (d : DiskFile) :
    docOf { cached := some c, disk := d } = c := rfl

theorem docOf_aliasMutate_some (st : MgrState) (c c0 : Config)
    (hc : st.cached = some c0) :
    docOf (ConfigManager.aliasMutate st c) = c := by
  unfold ConfigManager.aliasMutate docOf ConfigManager.load
  simp [hc]

theorem docOf_aliasMutate_none (st : MgrState) (c : Config)
    (hc : st.cached = none) :
    docOf (ConfigManager.aliasMutate st c) = docOf st := by
  unfold ConfigManager.aliasMutate docOf ConfigManager.load
  simp only [hc, Option.map_none]
  cases hd : st.disk <;> simp

theorem add_shape (wk : Bool) (now id token : String) (dn : Option String)
    (st : MgrState) :
    docOf (ConfigManager.addEnvironment wk now st id token dn).1 = docOf st ∨
    docOf (ConfigManager.addEnvironment wk now st id token dn).1 =
      addEnvironmentCfg now id token dn (docOf st) := by
  by_cases h1 : id = "" ∨ jsTrim id = ""
  · left
    simp [ConfigManager.addEnvironment, h1]
  · by_cases h2 : token = "" ∨ jsTrim token = ""
    · left
      simp [ConfigManager.addEnvironment, h1, h2]
    · by_cases h3 : (envGet (docOf st).environments (jsNormalizeId id)).isSome = true
      · left
        simp only [ConfigManager.addEnvironment, load_fst, h1, h2, h3,
          if_true, if_false, if_neg, ite_false, ite_true]
        simp [h1, h2, h3, docOf_load_snd]
      · cases wk with
        | true =>
          right
          simp only [ConfigManager.addEnvironment, ConfigManager.save, load_fst]
          simp only [h1, h2, h3, if_false, ite_false]
          simp [addEnvironmentCfg, h1, h2, h3, docOf_mk_some]
        | false =>
          simp only [ConfigManager.addEnvironment, ConfigManager.save, load_fst]
          simp only [h1, h2, h3, if_false, ite_false]
          simp only [Bool.false_eq_true, if_false, ite_false]
          cases hc : ((ConfigManager.load st).2).cached with
          | some c0 =>
            right
            rw [docOf_aliasMutate_some _ _ _ hc]
            simp [addEnvironmentCfg, h1, h2, h3]
          | none =>
            left
            rw [docOf_aliasMutate_none _ _ hc]
            exact docOf_load_snd st

theorem update_shape (wk : Bool) (st : MgrState) (id : String)
    (updToken updName : Option String) :
    docOf (ConfigManager.updateEnvironment wk st id updToken updName).1 = docOf st ∨
    docOf (ConfigManager.updateEnvironment wk st id updToken updName).1 =
      updateEnvironmentCfg id updToken updName (docOf st) := by
  cases hg : envGet (docOf st).environments id with
  | none =>
    left
    simp [ConfigManager.updateEnvironment, load_fst, hg, docOf_load_snd]
  | some existing =>
    cases wk with
    | true =>
      right
      simp only [ConfigManager.updateEnvironment, ConfigManager.save, load_fst, hg]
      simp [updateEnvironmentCfg, hg, docOf_mk_some]
    | false =>
      simp only [ConfigManager.updateEnvironment, ConfigManager.save, load_fst, hg]
      simp only [Bool.false_eq_true, if_false, ite_false]
      cases hc : ((ConfigManager.load st).2).cached with
      | some c0 =>
        right
        rw [docOf_aliasMutate_some _ _ _ hc]
        simp [updateEnvironmentCfg, hg]
      | none =>
        left
        rw [docOf_aliasMutate_none _ _ hc]
        exact docOf_load_snd st

theorem remove_shape (wk : Bool) (st : MgrState) (id : String) :
    docOf (ConfigManager.removeEnvironment wk st id).1 = docOf st ∨
    docOf (ConfigManager.removeEnvironment wk st id).1 =
      removeEnvironmentCfg id (docOf st) := by
  by_cases hg : (envGet (docOf st).environments id).isNone = true
  · left
    simp [ConfigManager.removeEnvironment, load_fst, hg, docOf_load_snd]
  · cases wk with
    | true =>
      right
      simp only [ConfigManager.removeEnvironment, ConfigManager.save, load_fst]
      simp only [hg, if_false, ite_false]
      simp [removeEnvironmentCfg, hg, docOf_mk_some]
    | false =>
      simp only [ConfigManager.removeEnvironment, ConfigManager.save, load_fst]
      simp only [hg, if_false, ite_false]
      simp only [Bool.false_eq_true, if_false, ite_false]
      cases hc : ((ConfigManager.load st).2).cached with
      | some c0 =>
        right
        rw [docOf_aliasMutate_some _ _ _ hc]
        simp [removeEnvironmentCfg, hg]
      | none =>
        left
        rw [docOf_aliasMutate_none _ _ hc]
        exact docOf_load_snd st

theorem setDefault_shape (wk : Bool) (st : MgrState) (id : String) :
    docOf (ConfigManager.setDefaultEnvironment wk st id).1 = docOf st ∨
    docOf (ConfigManager.setDefaultEnvironment wk st id).1 =
      setDefaultEnvironmentCfg id (docOf st) := by
  by_cases hg : (envGet (docOf st).environments id).isNone = true
  · left
    simp [ConfigManager.setDefaultEnvironment, load_fst, hg, docOf_load_snd]
  · cases wk with
    | true =>
      right
      simp only [ConfigManager.setDefaultEnvironment, ConfigManager.save, load_fst]
      simp only [hg, if_false, ite_false]
      simp [setDefaultEnvironmentCfg, hg, docOf_mk_some]
    | false =>
      simp only [ConfigManager.setDefaultEnvironment, ConfigManager.save, load_fst]
      simp only [hg, if_false, ite_false]
      simp only [Bool.false_eq_true, if_false, ite_false]
      cases hc : ((ConfigManager.load st).2).cached with
      | some c0 =>
        right
        rw [docOf_aliasMutate_some _ _ _ hc]
        simp [setDefaultEnvironmentCfg, hg]
      | none =>
        left
        rw [docOf_aliasMutate_none _ _ hc]
        exact docOf_load_snd st

theorem setPrefs_shape (wk : Bool) (st : MgrState)
    (updates : PartialPreferences) :
    docOf (ConfigManager.updatePreferences wk st updates).1 = docOf st ∨
    docOf (ConfigManager.updatePreferences wk st updates).1 =
      updatePreferencesCfg updates (docOf st) := by
  cases wk with
  | true =>
    right
    simp only [ConfigManager.updatePreferences, ConfigManager.save, load_fst]
    simp [updatePreferencesCfg, docOf_mk_some]
  | false =>
    simp only [ConfigManager.updatePreferences, ConfigManager.save, load_fst]
    simp only [Bool.false_eq_true, if_false, ite_false]
    cases hc : ((ConfigManager.load st).2).cached with
    | some c0 =>
      right
      rw [docOf_aliasMutate_some _ _ _ hc]
      simp [updatePreferencesCfg]
    | none =>
      left
      rw [docOf_aliasMutate_none _ _ hc]
      exact docOf_load_snd st

theorem docOf_applyMutOpFull (wk : Bool) (st : MgrState) (op : MutOp) :
    docOf (applyMutOpFull wk st op).1 = docOf st ∨
    docOf (applyMutOpFull wk st op).1 = mutOpConfig op (docOf st) := by
  cases op with
  | add now id token displayName =>
    simpa [applyMutOpFull, mutOpConfig] using add_shape wk now id token displayName st
  | update id updToken updName =>
    simpa [applyMutOpFull, mutOpConfig] using update_shape wk st id updToken updName
  | remove id =>
    simpa [applyMutOpFull, mutOpConfig] using remove_shape wk st id
  | setDefault id =>
    simpa [applyMutOpFull, mutOpConfig] using setDefault_shape wk st id
  | setPrefs updates =>
    simpa [applyMutOpFull, mutOpConfig] using setPrefs_shape wk st updates

theorem runOps_inv (P : Config → Prop)
    (hstep : ∀ op c, P c → P (mutOpConfig op c)) :
    ∀ (ops : List (MutOp × Bool)) (st : MgrState),
      P (docOf st) → P (docOf (runOps ops st)) := by
  intro ops
  induction ops with
  | nil => intro st h; exact h
  | cons ow rest ih =>
    intro st h
    show P (docOf (runOps rest (applyMutOpFull ow.2 st ow.1).1))
    apply ih
    rcases docOf_applyMutOpFull ow.2 st ow.1 with hd | hd
    · rw [hd]; exact h
    · rw [hd]; exact hstep ow.1 (docOf st) h

/-! ## Helper lemmas: invariant preservation by the document transitions -/

theorem defaultInv_add (now id token : String) (dn : Option String) (c : Config)
    (h : defaultInv c) : defaultInv (addEnvironmentCfg now id token dn c) := by
  unfold addEnvironmentCfg
  by_cases h1 : id = "" ∨ jsTrim id = ""
  · rw [if_pos h1]; exact h
  · rw [if_neg h1]
    by_cases h2 : token = "" ∨ jsTrim token = ""
    · rw [if_pos h2]; exact h
    · rw [if_neg h2]
      by_cases h3 : (envGet c.environments (jsNormalizeId id)).isSome = true
      · rw [if_pos h3]; exact h
      · rw [if_neg h3]
        dsimp only
        constructor
        · by_cases h4 :
            (envSet c.environments (jsNormalizeId id)
              { token := jsTrim token
                name := match dn with
                  | some d => if jsTrim d = "" then jsNormalizeId id else jsTrim d
                  | none => jsNormalizeId id
                createdAt := now }).length = 1
          · right
            simp only [if_pos h4]
            rw [envGet_envSet, if_pos rfl]
            rfl
          · simp only [if_neg h4]
            rcases h.1 with hd | hd
            · exact Or.inl hd
            · right
              rw [envGet_envSet]
              by_cases h5 : jsNormalizeId id = c.defaultEnvironment
              · rw [if_pos h5]; rfl
              · rw [if_neg h5]; exact hd
        · intro hnil
          exact absurd hnil (envSet_ne_nil _ _ _)

theorem defaultInv_update (id : String) (updToken updName : Option String)
    (c : Config) (h : defaultInv c) :
    defaultInv (updateEnvironmentCfg id updToken updName c) := by
  unfold updateEnvironmentCfg
  cases hg : envGet c.environments id with
  | none => exact h
  | some existing =>
    constructor
    · rcases h.1 with hd | hd
      · exact Or.inl hd
      · right
        rw [envGet_envSet]
        by_cases h5 : id = c.defaultEnvironment
        · rw [if_pos h5]; rfl
        · rw [if_neg h5]; exact hd
    · intro hnil
      exact absurd hnil (envSet_ne_nil _ _ _)

theorem defaultInv_remove (id : String) (c : Config) (h : defaultInv c) :
    defaultInv (removeEnvironmentCfg id c) := by
  unfold removeEnvironmentCfg
  by_cases hg : (envGet c.environments id).isNone = true
  · rw [if_pos hg]; exact h
  · rw [if_neg hg]
    dsimp only
    by_cases hda : c.defaultEnvironment = id
    · simp only [if_pos hda]
      cases hk : envKeys (envDel c.environments id) with
      | nil =>
        constructor
        · left
          rfl
        · intro _
          rfl
      | cons k t =>
        constructor
        · right
          exact envKeys_head_isSome _ k t hk
        · intro hnil
          have hnil2 : envDel c.environments id = [] := hnil
          rw [hnil2] at hk
          simp [envKeys] at hk
    · simp only [if_neg hda]
      constructor
      · rcases h.1 with hd | hd
        · exact Or.inl hd
        · right
          rw [envGet_envDel, if_neg hda]
          exact hd
      · intro hnil
        rcases h.1 with hd | hd
        · exact hd
        · exfalso
          obtain ⟨v, hv⟩ := Option.isSome_iff_exists.mp hd
          have hmem := envGet_mem _ _ _ hv
          have := envDel_eq_nil_keys _ _ hnil _ hmem
          exact hda this

theorem defaultInv_setDefault (id : String) (c : Config) (h : defaultInv c) :
    defaultInv (setDefaultEnvironmentCfg id c) := by
  unfold setDefaultEnvironmentCfg
  by_cases hg : (envGet c.environments id).isNone = true
  · rw [if_pos hg]; exact h
  · rw [if_neg hg]
    constructor
    · right
      cases ho : envGet c.environments id with
      | none => exact absurd (by simp [Option.isNone, ho]) hg
      | some v =>
        rfl
    · intro hnil
      exfalso
      apply hg
      have : envGet c.environments id = none := by
        rw [show (c.environments : EnvMap) = [] from hnil]
        rfl
      simp [this]

theorem defaultInv_setPrefs (updates : PartialPreferences) (c : Config)
    (h : defaultInv c) : defaultInv (updatePreferencesCfg updates c) := by
  unfold updatePreferencesCfg
  exact h

theorem defaultInv_mutOp (op : MutOp) (c : Config) (h : defaultInv c) :
    defaultInv (mutOpConfig op c) := by
  cases op with
  | add now id token displayName => exact defaultInv_add now id token displayName c h
  | update id updToken updName => exact defaultInv_update id updToken updName c h
  | remove id => exact defaultInv_remove id c h
  | setDefault id => exact defaultInv_setDefault id c h
  | setPrefs updates => exact defaultInv_setPrefs updates c h

theorem envShapeInv_add (now id token : String) (dn : Option String)
    (c : Config) (h : envShapeInv c) :
    envShapeInv (addEnvironmentCfg now id token dn c) := by
  unfold addEnvironmentCfg
  by_cases h1 : id = "" ∨ jsTrim id = ""
  · rw [if_pos h1]; exact h
  · rw [if_neg h1]
    by_cases h2 : token = "" ∨ jsTrim token = ""
    · rw [if_pos h2]; exact h
    · rw [if_neg h2]
      by_cases h3 : (envGet c.environments (jsNormalizeId id)).isSome = true
      · rw [if_pos h3]; exact h
      · rw [if_neg h3]
        intro p hp
        rcases envSet_mem _ _ _ p hp with hnew | hold
        · rw [hnew]
          refine ⟨goodId_jsNormalizeId id, ?_⟩
          exact jsTrim_idem token
        · exact h p hold

theorem envShapeInv_update (id : String) (updToken updName : Option String)
    (c : Config) (h : envShapeInv c) :
    envShapeInv (updateEnvironmentCfg id updToken updName c) := by
  unfold updateEnvironmentCfg
  cases hg : envGet c.environments id with
  | none => exact h
  | some existing =>
    intro p hp
    rcases envSet_mem _ _ _ p hp with hnew | hold
    · rw [hnew]
      have hmem := envGet_mem _ _ _ hg
      refine ⟨(h _ hmem).1, ?_⟩
      cases updToken with
      | some t =>
        show jsTrim (jsTrim t) = jsTrim t
        exact jsTrim_idem t
      | none =>
        show jsTrim existing.token = existing.token
        exact (h _ hmem).2
    · exact h p hold

theorem envShapeInv_remove (id : String) (c : Config) (h : envShapeInv c) :
    envShapeInv (removeEnvironmentCfg id c) := by
  unfold removeEnvironmentCfg
  by_cases hg : (envGet c.environments id).isNone = true
  · rw [if_pos hg]; exact h
  · rw [if_neg hg]
    intro p hp
    exact h p (envDel_mem _ _ p hp)

theorem envShapeInv_setDefault (id : String) (c : Config) (h : envShapeInv c) :
    envShapeInv (setDefaultEnvironmentCfg id c) := by
  unfold setDefaultEnvironmentCfg
  by_cases hg : (envGet c.environments id).isNone = true
  · rw [if_pos hg]; exact h
  · rw [if_neg hg]
    intro p hp
    exact h p hp

theorem envShapeInv_setPrefs (updates : PartialPreferences) (c : Config)
    (h : envShapeInv c) : envShapeInv (updatePreferencesCfg updates c) := by
  unfold updatePreferencesCfg
  intro p hp
  exact h p hp

theorem envShapeInv_mutOp (op : MutOp) (c : Config) (h : envShapeInv c) :
    envShapeInv (mutOpConfig op c) := by
  cases op with
  | add now id token displayName => exact envShapeInv_add now id token displayName c h
  | update id updToken updName => exact envShapeInv_update id updToken updName c h
  | remove id => exact envShapeInv_remove id c h
  | setDefault id => exact envShapeInv_setDefault id c h
  | setPrefs updates => exact envShapeInv_setPrefs updates c h

/-! ## Helper lemmas: atomicity with a succeeding disk write -/

/-- With `writeOk = true`, an operation either reports failure leaving the
document and the disk unchanged, or reports success with the new document
both cached and persisted. -/
def atomicOutcome (st : MgrState) (out : MgrState × Except Unit Bool) : Prop :=
  (out.2 = .ok false ∧ docOf out.1 = docOf st ∧ out.1.disk = st.disk) ∨
  (out.2 = .ok true ∧ out.1.cached = some (docOf out.1) ∧
    out.1.disk = .stored (configToPartialDoc (docOf out.1)))

theorem add_atomic (now id token : String) (dn : Option String)
    (st : MgrState) :
    atomicOutcome st (applyMutOpFull true st (.add now id token dn)) := by
  unfold atomicOutcome applyMutOpFull ConfigManager.addEnvironment ConfigManager.save
  by_cases h1 : id = "" ∨ jsTrim id = ""
  · left
    simp [h1, Except.map]
  · by_cases h2 : token = "" ∨ jsTrim token = ""
    · left
      simp [h1, h2, Except.map]
    · by_cases h3 : (envGet (docOf st).environments (jsNormalizeId id)).isSome = true
      · left
        simp only [load_fst, h1, h2, h3, if_true, if_false, ite_true, ite_false]
        simp [docOf_load_snd, load_snd_disk, Except.map]
      · right
        simp only [load_fst, h1, h2, h3, if_true, if_false, ite_true, ite_false]
        simp [docOf_mk_some, Except.map]

theorem update_atomic (st : MgrState) (id : String)
    (updToken updName : Option String) :
    atomicOutcome st (applyMutOpFull true st (.update id updToken updName)) := by
  unfold atomicOutcome applyMutOpFull ConfigManager.updateEnvironment ConfigManager.save
  cases hg : envGet (docOf st).environments id with
  | none =>
    left
    simp only [load_fst, hg]
    simp [docOf_load_snd, load_snd_disk, Except.map]
  | some existing =>
    right
    simp only [load_fst, hg]
    simp [docOf_mk_some, Except.map]

theorem remove_atomic (st : MgrState) (id : String) :
    atomicOutcome st (applyMutOpFull true st (.remove id)) := by
  unfold atomicOutcome applyMutOpFull ConfigManager.removeEnvironment ConfigManager.save
  by_cases hg : (envGet (docOf st).environments id).isNone = true
  · left
    simp only [load_fst, hg, if_true, ite_true]
    simp [docOf_load_snd, load_snd_disk, Except.map]
  · right
    simp only [load_fst, hg, if_false, ite_false]
    simp [docOf_mk_some, Except.map]

theorem setDefault_atomic (st : MgrState) (id : String) :
    atomicOutcome st (applyMutOpFull true st (.setDefault id)) := by
  unfold atomicOutcome applyMutOpFull ConfigManager.setDefaultEnvironment ConfigManager.save
  by_cases hg : (envGet (docOf st).environments id).isNone = true
  · left
    simp only [load_fst, hg, if_true, ite_true]
    simp [docOf_load_snd, load_snd_disk, Except.map]
  · right
    simp only [load_fst, hg, if_false, ite_false]
    simp [docOf_mk_some, Except.map]

theorem setPrefs_atomic (st : MgrState) (updates : PartialPreferences) :
    atomicOutcome st (applyMutOpFull true st (.setPrefs updates)) := by
  unfold atomicOutcome applyMutOpFull ConfigManager.updatePreferences ConfigManager.save
  right
  simp only [load_fst]
  simp [docOf_mk_some, Except.map]

theorem mutOp_atomic (st : MgrState) (op : MutOp) :
    atomicOutcome st (applyMutOpFull true st op) := by
  cases op with
  | add now id token displayName => exact add_atomic now id token displayName st
  | update id updToken updName => exact update_atomic st id updToken updName
  | remove id => exact remove_atomic st id
  | setDefault id => exact setDefault_atomic st id
  | setPrefs updates => exact setPrefs_atomic st updates

/-- Even when the disk write fails, nothing is ever partially written: the
backing file is exactly as before the call. -/
theorem mutOp_writeFail_disk (st : MgrState) (op : MutOp) :
    (applyMutOpFull false st op).1.disk = st.disk := by
  cases op with
  | add now id token displayName =>
    unfold applyMutOpFull ConfigManager.addEnvironment ConfigManager.save
    by_cases h1 : id = "" ∨ jsTrim id = ""
    · simp [h1]
    · by_cases h2 : token = "" ∨ jsTrim token = ""
      · simp [h1, h2]
      · by_cases h3 : (envGet (docOf st).environments (jsNormalizeId id)).isSome = true
        · simp only [load_fst, h1, h2, h3, if_true, if_false, ite_true, ite_false]
          simp [load_snd_disk]
        · simp only [load_fst, h1, h2, h3, if_true, if_false, ite_true, ite_false]
          simp [aliasMutate_disk, load_snd_disk]
  | update id updToken updName =>
    unfold applyMutOpFull ConfigManager.updateEnvironment ConfigManager.save
    cases hg : envGet (docOf st).environments id with
    | none =>
      simp only [load_fst, hg]
      simp [load_snd_disk]
    | some existing =>
      simp only [load_fst, hg]
      simp [aliasMutate_disk, load_snd_disk]
  | remove id =>
    unfold applyMutOpFull ConfigManager.removeEnvironment ConfigManager.save
    by_cases hg : (envGet (docOf st).environments id).isNone = true
    · simp only [load_fst, hg, if_true, ite_true]
      simp [load_snd_disk]
    · simp only [load_fst, hg, if_false, ite_false]
      simp [aliasMutate_disk, load_snd_disk]
  | setDefault id =>
    unfold applyMutOpFull ConfigManager.setDefaultEnvironment ConfigManager.save
    by_cases hg : (envGet (docOf st).environments id).isNone = true
    · simp only [load_fst, hg, if_true, ite_true]
      simp [load_snd_disk]
    · simp only [load_fst, hg, if_false, ite_false]
      simp [aliasMutate_disk, load_snd_disk]
  | setPrefs updates =>
    unfold applyMutOpFull ConfigManager.updatePreferences ConfigManager.save
    simp only [load_fst]
    simp [aliasMutate_disk, load_snd_disk]

/-! ## Claim theorems -/

/-- C1: for every context, operation (returning a value or raising any
failure), and optional resource info, `executeWithErrorHandling` never
raises: it is a total function into `OperationResult`, returning
`{success := true, data := v}` when the (possibly retried) operation settles
with a value `v`, and otherwise classifying the thrown value and returning
`{success := false, error := userMessage}` — no raw failure crosses the
boundary. -/
theorem claim_C1 {α : Type} (retryOptions : Option RetryOptions)
    (context : String) (op : Nat → Outcome α)
    (resourceInfo : Option ResourceInfo) :
    (∃ v, (executeWithRetry retryOptions op).result = .ok v ∧
      executeWithErrorHandling retryOptions context op resourceInfo =
        { success := true, data := some v, error := none }) ∨
    (∃ e, (executeWithRetry retryOptions op).result = .error e ∧
      executeWithErrorHandling retryOptions context op resourceInfo =
        { success := false, data := none,
          error := some (parseApiError e
            (buildFullContext context resourceInfo)).getUserMessage }) := by
  unfold executeWithErrorHandling handleError
  cases hr : (executeWithRetry retryOptions op).result with
  | ok v =>
    left
    exact ⟨v, rfl, rfl⟩
  | error e =>
    right
    exact ⟨e, rfl, rfl⟩

/-- C2: with the default retry policy, an operation that raises a retryable
failure on every attempt is invoked exactly 4 times (1 initial + 3 retries),
the slept delays are exactly 1000, 2000, 4000 ms (doubling, capped at
10000 ms, no jitter), the loop finally rethrows, and the executor returns an
`OperationResult` with `success = false`. -/
theorem claim_C2 {α : Type} (context : String) (op : Nat → Outcome α)
    (resourceInfo : Option ResourceInfo)
    (h : ∀ n, ∃ e, op n = .fail e ∧
      (parseApiError e "retry-check").isRetryable = true) :
    (executeWithRetry (some DEFAULT_RETRY_OPTIONS) op).attempts = 4 ∧
    (executeWithRetry (some DEFAULT_RETRY_OPTIONS) op).sleeps =
      [1000, 2000, 4000] ∧
    (∃ e, (executeWithRetry (some DEFAULT_RETRY_OPTIONS) op).result = .error e) ∧
    (executeWithErrorHandling (some DEFAULT_RETRY_OPTIONS) context op
      resourceInfo).success = false := by
  obtain ⟨e0, h0, r0⟩ := h 0
  obtain ⟨e1, h1, r1⟩ := h 1
  obtain ⟨e2, h2, r2⟩ := h 2
  obtain ⟨e3, h3, r3⟩ := h 3
  have s3 : retryLoop 2 10000 op 0 3 8000 = ⟨.error e3, 4, []⟩ := by
    rw [retryLoop, h3]
  have s2 : retryLoop 2 10000 op 1 2 4000 = ⟨.error e3, 4, [4000]⟩ := by
    rw [retryLoop, h2]
    have hmin : min (4000 * 2) 10000 = 8000 := by norm_num
    simp only [r2, if_true, hmin, s3]
  have s1 : retryLoop 2 10000 op 2 1 2000 = ⟨.error e3, 4, [2000, 4000]⟩ := by
    rw [retryLoop, h1]
    have hmin : min (2000 * 2) 10000 = 4000 := by norm_num
    simp only [r1, if_true, hmin, s2]
  have s0 : retryLoop 2 10000 op 3 0 1000 = ⟨.error e3, 4, [1000, 2000, 4000]⟩ := by
    rw [retryLoop, h0]
    have hmin : min (1000 * 2) 10000 = 2000 := by norm_num
    simp only [r0, if_true, hmin, s1]
  have key : executeWithRetry (some DEFAULT_RETRY_OPTIONS) op =
      ⟨.error e3, 4, [1000, 2000, 4000]⟩ := by
    show retryLoop 2 10000 op 3 0 1000 = _
    exact s0
  refine ⟨by rw [key], by rw [key], ⟨e3, by rw [key]⟩, ?_⟩
  unfold executeWithErrorHandling
  rw [key]

/-- C5: every config document reachable from the default (empty) document by
any sequence of mutating store operations keeps `defaultEnvironment` either
empty or bound to an existing environment key, and an empty environments
mapping forces an empty default. -/
theorem claim_C5 (ops : List (MutOp × Bool)) :
    defaultInv (docOf (runOps ops initialState)) := by
  apply runOps_inv defaultInv defaultInv_mutOp
  constructor
  · exact Or.inl rfl
  · intro _
    rfl

/-- C8: saving any complete document, clearing the cache, and loading again
returns exactly the saved document (normalization of the optional fields is
the identity on a complete document). -/
theorem claim_C8 (st : MgrState) (doc : Config) :
    (ConfigManager.load (ConfigManager.clearCache
      (ConfigManager.save true st doc).1)).1 = doc := rfl

/-- C9: with nothing cached, loading an absent backing file or one whose
content fails to parse returns the normalized default document and leaves
the state untouched — corruption is recovered silently, never raised. -/
theorem claim_C9 (st : MgrState) (h1 : st.cached = none)
    (h2 : st.disk = DiskFile.absent ∨ ∃ bytes, st.disk = DiskFile.corrupt bytes) :
    (ConfigManager.load st).1 = DEFAULT_CONFIG ∧
    (ConfigManager.load st).2 = st := by
  unfold ConfigManager.load
  rcases h2 with h2 | ⟨bytes, h2⟩ <;> simp [h1, h2]

theorem claim_C9_witness :
    ({ cached := none, disk := DiskFile.corrupt "not valid json" } : MgrState).cached = none ∧
    (ConfigManager.load
      { cached := none, disk := DiskFile.corrupt "not valid json" }).1 = DEFAULT_CONFIG :=
  ⟨rfl, (claim_C9 { cached := none, disk := DiskFile.corrupt "not valid json" }
    rfl (Or.inr ⟨"not valid json", rfl⟩)).1⟩

theorem claim_C2_witness :
    (executeWithRetry (some DEFAULT_RETRY_OPTIONS)
      (fun _ => Outcome.fail (JSValue.jsError "network down") : Nat → Outcome Nat)).attempts = 4 ∧
    (executeWithRetry (some DEFAULT_RETRY_OPTIONS)
      (fun _ => Outcome.fail (JSValue.jsError "network down") : Nat → Outcome Nat)).sleeps =
      [1000, 2000, 4000] ∧
    (∃ e, (executeWithRetry (some DEFAULT_RETRY_OPTIONS)
      (fun _ => Outcome.fail (JSValue.jsError "network down") : Nat → Outcome Nat)).result = .error e) ∧
    (executeWithErrorHandling (some DEFAULT_RETRY_OPTIONS) "Listing URL groups"
      (fun _ => Outcome.fail (JSValue.jsError "network down") : Nat → Outcome Nat)
      none).success = false :=
  claim_C2 "Listing URL groups"
    (fun _ => Outcome.fail (JSValue.jsError "network down"))
    none
    (fun _ => ⟨JSValue.jsError "network down", rfl, by decide⟩)

/-- C7 (counterexample): the claim "the stored token is non-empty and
contains no whitespace characters" fails on the code: `addEnvironment`
stores the trimmed token, which may contain interior whitespace, and
`updateEnvironment` given a whitespace-only token stores the empty string. -/
theorem claim_C7_counterexample :
    (docOf (runOps [(MutOp.add "t0" "prod" "ab cd" none, true)]
      initialState)).environments =
        [("prod", { token := "ab cd", name := "prod", createdAt := "t0" })] ∧
    ("ab cd".toList.all fun c => !jsWsB c) = false ∧
    (docOf (runOps [(MutOp.add "t0" "prod" "tok1" none, true),
        (MutOp.update "prod" (some "   ") none, true)] initialState)).environments =
      [("prod", { token := "", name := "prod", createdAt := "t0" })] := by
  decide

/-- C7 (amended): in every document reachable from the empty document by
mutating store operations, each stored environment id is normalized
(lower-case, whitespace-free) and each stored token is trimmed (no leading
or trailing whitespace); tokens may however contain interior whitespace, and
may be empty after an `updateEnvironment` with a blank token. -/
theorem claim_C7_amended (ops : List (MutOp × Bool)) :
    envShapeInv (docOf (runOps ops initialState)) := by
  apply runOps_inv envShapeInv envShapeInv_mutOp
  intro p hp
  exact absurd hp (List.not_mem_nil p)

/-- C4 (counterexample): atomicity fails when the disk write fails: the
mutating operation has already mutated the cached in-memory document in
place before `save` throws, so the in-memory document differs from the
pre-call one even though the disk is unchanged and the exception
propagates. -/
theorem claim_C4_counterexample :
    (ConfigManager.addEnvironment false "t1"
      (ConfigManager.addEnvironment true "t0" initialState "a" "token-a" none).1
      "b" "token-b" none).2 = .error () ∧
    (ConfigManager.addEnvironment false "t1"
      (ConfigManager.addEnvironment true "t0" initialState "a" "token-a" none).1
      "b" "token-b" none).1.disk =
      (ConfigManager.addEnvironment true "t0" initialState "a" "token-a" none).1.disk ∧
    docOf (ConfigManager.addEnvironment false "t1"
      (ConfigManager.addEnvironment true "t0" initialState "a" "token-a" none).1
      "b" "token-b" none).1 ≠
      docOf (ConfigManager.addEnvironment true "t0" initialState "a" "token-a" none).1 :=
  ⟨rfl, rfl, by decide⟩

/-- C4 (amended): every mutating store operation is atomic whenever the disk
write succeeds — it either reports failure leaving the loaded document and
the backing file unchanged, or reports success with the new document both
cached and persisted; and even on a failing disk write the backing file is
never partially written (the file is exactly as before, though the cached
in-memory document may already carry the mutation). -/
theorem claim_C4_amended (st : MgrState) (op : MutOp) :
    atomicOutcome st (applyMutOpFull true st op) ∧
    (applyMutOpFull false st op).1.disk = st.disk :=
  ⟨mutOp_atomic st op, mutOp_writeFail_disk st op⟩

/-- C6 (counterexample): the claim that a non-error failure whose string
form contains a recognized substring (e.g. "401") is classified to the
corresponding kind is false: `parseApiError` applies the substring checks
only to `Error` inputs, and classifies every non-error value as `UNKNOWN`
even though its string form contains "401". -/
theorem claim_C6_counterexample :
    strIncludes "401" "401" = true ∧
    (parseApiError (JSValue.other "401") "operation").code =
      QStashErrorCode.UNKNOWN ∧
    QStashErrorCode.UNKNOWN ≠ QStashErrorCode.UNAUTHORIZED := by
  decide

/-- C6 (amended): for `Error` failures the classifier inspects the
lower-cased message for substrings in the fixed priority order and returns
the first match with its fixed kind, status code and retryability (plus the
best-effort retry-after extraction for the rate-limit kind); a non-error
failure is always classified `UNKNOWN` and not retryable, regardless of its
string form. -/
theorem claim_C6_amended (msg s context : String) :
    ((parseApiError (JSValue.jsError msg) context).code =
        classifyKindSpec (jsToLower msg) ∧
      (parseApiError (JSValue.jsError msg) context).statusCode =
        kindStatusSpec (classifyKindSpec (jsToLower msg)) (jsToLower msg) ∧
      (parseApiError (JSValue.jsError msg) context).isRetryable =
        kindRetryableSpec (classifyKindSpec (jsToLower msg)) ∧
      (parseApiError (JSValue.jsError msg) context).retryAfter =
        (if classifyKindSpec (jsToLower msg) = QStashErrorCode.RATE_LIMITED then
          retryScan (jsToLower msg).toList else none)) ∧
    ((parseApiError (JSValue.other s) context).code = QStashErrorCode.UNKNOWN ∧
      (parseApiError (JSValue.other s) context).isRetryable = false) := by
  constructor
  · unfold parseApiError classifyKindSpec
    by_cases hA : (strIncludes (jsToLower msg) "401" ||
        strIncludes (jsToLower msg) "unauthorized" ||
        strIncludes (jsToLower msg) "authentication") = true
    · simp [hA, QStashAuthError, kindStatusSpec, kindRetryableSpec]
    · by_cases hB : (strIncludes (jsToLower msg) "404" ||
          strIncludes (jsToLower msg) "not found") = true
      · simp [hA, hB, QStashNotFoundError, kindStatusSpec, kindRetryableSpec]
      · by_cases hC : (strIncludes (jsToLower msg) "429" ||
            strIncludes (jsToLower msg) "rate limit" ||
            strIncludes (jsToLower msg) "too many requests") = true
        · simp only [hA, hB, hC, if_true, if_false, ite_true, ite_false,
            Bool.false_eq_true]
          unfold QStashRateLimitError
          cases hr : retryScan (jsToLower msg).toList with
          | none => simp [kindStatusSpec, kindRetryableSpec]
          | some n => cases n <;> simp [kindStatusSpec, kindRetryableSpec]
        · by_cases hD : (strIncludes (jsToLower msg) "400" ||
              strIncludes (jsToLower msg) "bad request" ||
              strIncludes (jsToLower msg) "invalid") = true
          · simp [hA, hB, hC, hD, QStashBadRequestError, kindStatusSpec,
              kindRetryableSpec]
          · by_cases hE : (strIncludes (jsToLower msg) "500" ||
                strIncludes (jsToLower msg) "502" ||
                strIncludes (jsToLower msg) "503" ||
                strIncludes (jsToLower msg) "504") = true
            · simp [hA, hB, hC, hD, hE, QStashServerError, kindStatusSpec,
                kindRetryableSpec]
            · by_cases hF : (strIncludes (jsToLower msg) "network" ||
                  strIncludes (jsToLower msg) "econnrefused" ||
                  strIncludes (jsToLower msg) "enotfound" ||
                  strIncludes (jsToLower msg) "timeout" ||
                  strIncludes (jsToLower msg) "etimedout" ||
                  strIncludes (jsToLower msg) "fetch failed") = true
              · simp [hA, hB, hC, hD, hE, hF, QStashNetworkError,
                  kindStatusSpec, kindRetryableSpec]
              · simp [hA, hB, hC, hD, hE, hF, kindStatusSpec, kindRetryableSpec]
  · constructor
    · rfl
    · rfl

/-- C3 (counterexample): the claim that a blank-after-trim value at ANY tier
is treated as absent fails at the config tier: with no CLI token and no
environment variable, a stored environment whose token is whitespace-only is
still returned verbatim (source `config`), where the claim requires
resolution to fall through to absence (`null`). -/
theorem claim_C3_counterexample :
    ConfigManager.resolveToken none
      { cached := some
          { version := "1"
            defaultEnvironment := "e"
            environments := [("e", { token := "  ", name := "e", createdAt := "t0" })]
            preferences := DEFAULT_PREFERENCES }
        disk := DiskFile.absent }
      {} =
      some { token := "  ", source := TokenSource.config,
             environmentName := some "e" } ∧
    jsTrim "  " = "" := by
  constructor
  · rfl
  · rfl

/-- The config tier of `resolveToken` agrees with its spec description. -/
theorem configTier_eq (st : MgrState) (options : TokenResolutionOptions) :
    ConfigManager.resolveTokenConfigTier st options = configTierSpec st options := by
  unfold ConfigManager.resolveTokenConfigTier configTierSpec
  rw [load_fst]
  cases hn : options.environmentName with
  | none =>
    dsimp only
    by_cases hd : (docOf st).defaultEnvironment = ""
    · rw [if_neg (fun hcon => hcon hd), if_pos hd]
    · rw [if_pos hd, if_neg hd]
      cases hg : envGet (docOf st).environments (docOf st).defaultEnvironment <;>
        simp
  | some n =>
    dsimp only
    by_cases hne : n = ""
    · simp only [if_pos hne, if_neg (fun hcon : n ≠ "" => hcon hne)]
      by_cases hd : (docOf st).defaultEnvironment = ""
      · rw [if_neg (fun hcon => hcon hd), if_pos hd]
      · rw [if_pos hd, if_neg hd]
        cases hg : envGet (docOf st).environments (docOf st).defaultEnvironment <;>
          simp
    · simp only [if_neg hne, if_pos hne]
      cases hg : envGet (docOf st).environments n <;> simp

/-- The environment-variable tier of `resolveToken` agrees with its spec
description, falling through to the config tier. -/
theorem envTier_eq (envVar : Option String) (st : MgrState)
    (options : TokenResolutionOptions) :
    ConfigManager.resolveTokenEnvTier envVar st options =
      (match envTierSpec envVar with
       | some r => some r
       | none => ConfigManager.resolveTokenConfigTier st options) := by
  unfold ConfigManager.resolveTokenEnvTier envTierSpec
  cases envVar with
  | none => rfl
  | some t =>
    dsimp only
    by_cases ht : jsTrim t = ""
    · rw [if_neg (fun hand : t ≠ "" ∧ jsTrim t ≠ "" => hand.2 ht), if_pos ht]
    · have htne : t ≠ "" := fun h0 => ht (by rw [h0]; rfl)
      rw [if_pos (show t ≠ "" ∧ jsTrim t ≠ "" from ⟨htne, ht⟩), if_neg ht]

/-- C3 (amended): `resolveToken` evaluates CLI token, then the
`QSTASH_TOKEN` environment variable, then the config store (the optionally
named environment, else the default), short-circuiting at the first tier
that yields a value, and returns absence (`null`, not an error) when no tier
does; blank-after-trim values are treated as absent at the CLI and
environment-variable tiers (which resolve to the trimmed value), while the
config tier returns the stored token verbatim — with no blank check —
whenever the effective environment name is non-empty and stored; the result
records the matching source, with the environment name only for `config`. -/
theorem claim_C3_amended (envVar : Option String) (st : MgrState)
    (options : TokenResolutionOptions) :
    ConfigManager.resolveToken envVar st options =
      resolveTokenSpecAmended envVar st options := by
  unfold ConfigManager.resolveToken resolveTokenSpecAmended cliTierSpec
  have tailEq : ConfigManager.resolveTokenEnvTier envVar st options =
      firstSomeTier [envTierSpec envVar, configTierSpec st options] := by
    rw [envTier_eq]
    cases he : envTierSpec envVar with
    | some r => rfl
    | none =>
      rw [configTier_eq]
      cases hcfg : configTierSpec st options <;> rfl
  cases hc : options.cliToken with
  | none =>
    dsimp only
    rw [tailEq]
    simp [firstSomeTier]
  | some t =>
    dsimp only
    by_cases ht : jsTrim t = ""
    · rw [if_neg (fun hand : t ≠ "" ∧ jsTrim t ≠ "" => hand.2 ht), if_pos ht,
        tailEq]
      simp [firstSomeTier]
    · have htne : t ≠ "" := fun h0 => ht (by rw [h0]; rfl)
      rw [if_pos (show t ≠ "" ∧ jsTrim t ≠ "" from ⟨htne, ht⟩), if_neg ht]
      simp [firstSomeTier]

/-- C10: `addEnvironment` normalizes the supplied id before the duplicate
check and before storing, but `getEnvironment`, `updateEnvironment`,
`removeEnvironment`, and `setDefaultEnvironment` look the id up exactly as
supplied: after adding under a raw id whose normalized form differs, only
the normalized id reads back the environment — the raw id yields `undefined`
from `getEnvironment` and a `does not exist` failure from the mutators. -/
theorem claim_C10 (st : MgrState) (raw tok now : String)
    (hnorm : jsNormalizeId raw ≠ raw)
    (hid : ¬(raw = "" ∨ jsTrim raw = ""))
    (htok : ¬(tok = "" ∨ jsTrim tok = ""))
    (hdupN : envGet (docOf st).environments (jsNormalizeId raw) = none)
    (hdupR : envGet (docOf st).environments raw = none) :
    (∃ env, (ConfigManager.addEnvironment true now st raw tok none).2 =
      .ok { success := true, environment := some env, error := none }) ∧
    (ConfigManager.getEnvironment
      (ConfigManager.addEnvironment true now st raw tok none).1
      (jsNormalizeId raw)).isSome = true ∧
    ConfigManager.getEnvironment
      (ConfigManager.addEnvironment true now st raw tok none).1 raw = none ∧
    (ConfigManager.updateEnvironment true
      (ConfigManager.addEnvironment true now st raw tok none).1 raw
      (some "x") none).2 =
      .ok { success := false, environment := none,
            error := some (msgDoesNotExist raw) } ∧
    (ConfigManager.removeEnvironment true
      (ConfigManager.addEnvironment true now st raw tok none).1 raw).2 =
      .ok { success := false, error := some (msgDoesNotExist raw),
            defaultAffected := false } ∧
    (ConfigManager.setDefaultEnvironment true
      (ConfigManager.addEnvironment true now st raw tok none).1 raw).2 =
      .ok { success := false, previousDefault := none,
            error := some (msgDoesNotExist raw) } := by
  have h3 : ¬(envGet (docOf st).environments (jsNormalizeId raw)).isSome = true := by
    simp [hdupN]
  have hgetN : ConfigManager.getEnvironment
      (ConfigManager.addEnvironment true now st raw tok none).1
      (jsNormalizeId raw) =
      some { token := jsTrim tok, name := jsNormalizeId raw, createdAt := now } := by
    unfold ConfigManager.getEnvironment
    rw [load_fst]
    unfold ConfigManager.addEnvironment ConfigManager.save
    simp only [load_fst, hid, htok, h3, if_true, if_false, ite_true, ite_false,
      Bool.false_eq_true, docOf_mk_some]
    rw [envGet_envSet, if_pos rfl]
  have hgetR : ConfigManager.getEnvironment
      (ConfigManager.addEnvironment true now st raw tok none).1 raw = none := by
    unfold ConfigManager.getEnvironment
    rw [load_fst]
    unfold ConfigManager.addEnvironment ConfigManager.save
    simp only [load_fst, hid, htok, h3, if_true, if_false, ite_true, ite_false,
      Bool.false_eq_true, docOf_mk_some]
    rw [envGet_envSet, if_neg hnorm]
    exact hdupR
  have hdocAfter : envGet
      (docOf (ConfigManager.addEnvironment true now st raw tok none).1).environments
      raw = none := hgetR
  refine ⟨?_, ?_, hgetR, ?_, ?_, ?_⟩
  · unfold ConfigManager.addEnvironment ConfigManager.save
    simp only [load_fst, hid, htok, h3, if_true, if_false, ite_true, ite_false]
    exact ⟨_, rfl⟩
  · rw [hgetN]
    rfl
  · unfold ConfigManager.updateEnvironment
    simp only [load_fst, hdocAfter]
  · unfold ConfigManager.removeEnvironment
    simp only [load_fst, hdocAfter, Option.isNone_none, if_true, ite_true]
  · unfold ConfigManager.setDefaultEnvironment
    simp only [load_fst, hdocAfter, Option.isNone_none, if_true, ite_true]

theorem claim_C10_witness :
    ConfigManager.getEnvironment
      (ConfigManager.addEnvironment true "t0" initialState "My Env" "tok-abc" none).1
      "My Env" = none ∧
    (ConfigManager.getEnvironment
      (ConfigManager.addEnvironment true "t0" initialState "My Env" "tok-abc" none).1
      (jsNormalizeId "My Env")).isSome = true ∧
    (ConfigManager.updateEnvironment true
      (ConfigManager.addEnvironment true "t0" initialState "My Env" "tok-abc" none).1
      "My Env" (some "x") none).2 =
      .ok { success := false, environment := none,
            error := some (msgDoesNotExist "My Env") } :=
  ⟨(claim_C10 initialState "My Env" "tok-abc" "t0" (by decide) (by decide)
      (by decide) (by decide) (by decide)).2.2.1,
   (claim_C10 initialState "My Env" "tok-abc" "t0" (by decide) (by decide)
      (by decide) (by decide) (by decide)).2.1,
   (claim_C10 initialState "My Env" "tok-abc" "t0" (by decide) (by decide)
      (by decide) (by decide) (by decide)).2.2.2.1⟩
